import Mathlib

/-!
Verification of the per-frame game simulation of the "Snake Bird Adventure"
browser game (`src/components/FlappyBird.tsx`, feature-richest variant under
`src/`: snake growth segments, portal/bonus world, used-portal registry).

Modelling conventions:
* JavaScript numbers are modelled as exact rationals (`ℚ`); the body-segment
  follow algorithm, which computes actual square roots, is modelled over `ℝ`.
* The source compares `Math.sqrt d < r` for nonnegative `d` and positive `r`;
  inside the computable `ℚ` step function this is embedded as the equivalent
  comparison `d < r ^ 2` (see lemma `sqrt_lt_iff_lt_sq` below, which justifies
  the translation over `ℝ`).
* Per-tick randomness (`Math.random()` draws, `Date.now()` id stamps) is
  passed in explicitly through an `Env` record, one field per draw site.
* The optional pipe field `id?: string` is modelled as a `String` where `""`
  stands for a missing id; the source only ever reads it as `pipe.id || ''`
  and as the truthiness test `pipe.id`, which becomes `pipe.id ≠ ""`.
* `usedPortalIds : Set<string>` is modelled as a `List String` with
  membership as the set semantics; `Set.add` inserts only when absent.
* The trailing body segments are regenerated each tick by
  `updateBodySegments` from the new head position, the previous segments and
  the growth counter, and are read by nothing else in the simulation; they
  are modelled separately over `ℝ` (their ids are the fixed display strings
  `segment-i` and are omitted).  The `setTimeout`-based delayed reset of the
  `isEating` flag (a deferred UI patch) and toast notifications are outside
  the tick function; the two game-over toast texts are modelled as the
  string constants `timeUpMessage` and `collisionMessage`.
-/

/-! ### Constants (from the source) -/

def BIRD_SIZE : ℚ := 30
def PIPE_WIDTH : ℚ := 60
def INITIAL_PIPE_GAP : ℚ := 250
def MIN_PIPE_GAP : ℚ := 120
def MOVE_SPEED : ℚ := 4
def PIPE_SPEED : ℚ := 2
def SPECIAL_PIPE_CHANCE : ℚ := 0.2
def SEGMENT_FOLLOW_DISTANCE : ℚ := 25

/-! ### Data model -/

/-- An obstacle (`pipes` array element): x position, vertical gap start,
passed flag, portal flag, gap size, unique id (`""` models a missing id). -/
structure Pipe where
  x : ℚ
  topHeight : ℚ
  passed : Bool
  isSpecial : Bool
  gap : ℚ
  id : String
deriving DecidableEq

/-- A bonus-world collectible (`worldCoins` array element, displayed as a
frog). -/
structure Frog where
  x : ℚ
  y : ℚ
  collected : Bool
  id : String
deriving DecidableEq

/-- Snapshot of the obstacle through which the bonus world was entered
(`enteredPortal`), kept for computing the return position on exit. -/
structure EnteredPortal where
  x : ℚ
  topHeight : ℚ
  gap : ℚ
  id : String
deriving DecidableEq

/-- The full simulation state (the `GameState` interface), except the
`bodySegments` field, which is regenerated from scratch every tick by
`updateBodySegments` (modelled over `ℝ` below) and never read by any other
part of the simulation. -/
structure GameState where
  birdX : ℚ
  birdY : ℚ
  birdDirX : ℚ
  birdDirY : ℚ
  pipes : List Pipe
  coins : ℚ
  gameStarted : Bool
  gameOver : Bool
  inSpecialWorld : Bool
  worldCoins : List Frog
  colorTheme : ℤ
  portalTimer : ℚ
  portalExit : Option (ℚ × ℚ)
  enteredPortal : Option EnteredPortal
  frogsEaten : ℕ
  isEating : Bool
  usedPortalIds : List String
deriving DecidableEq

/-- The movement keys held during a tick (`pressedKeys`). -/
structure Input where
  keyW : Bool
  keyA : Bool
  keyS : Bool
  keyD : Bool
deriving DecidableEq

/-- The random draws a single tick can consume, one field per call site of
`Math.random()` / `Date.now()` in the source. -/
structure Env where
  /-- Draw for `topHeight` of a newly spawned pipe (`Math.random()`). -/
  spawnHeightRand : ℚ
  /-- Draw deciding `isSpecial` of a newly spawned pipe. -/
  spawnSpecialRand : ℚ
  /-- Fresh id for a newly spawned pipe (`pipe-${Date.now()}-${Math.random()}`). -/
  spawnId : String
  /-- Draws for the 12 bonus-world frog positions (`generateWorldCoins`). -/
  frogRands : ℕ → ℚ × ℚ
  /-- Stamp appended to frog ids (`Date.now()`). -/
  frogStamp : String
  /-- Draws for a portal exit position (`generatePortalExit`). -/
  exitRand : ℚ × ℚ

/-! ### Constructors and small helpers (from the source) -/

/-- Source `generateWorldCoins`: a dense batch of 12 uncollected frogs at random
positions `(rand*340+30, rand*400+50)` with ids `frog-${i}-${Date.now()}`. -/
def generateWorldCoins (env : Env) : List Frog :=
  (List.range 12).map fun i =>
    { x := (env.frogRands i).1 * 340 + 30
      y := (env.frogRands i).2 * 400 + 50
      collected := false
      id := "frog-" ++ toString i ++ "-" ++ env.frogStamp }

/-- Source `generatePortalExit`: a random exit point `(rand*300+50, rand*300+50)`. -/
def generatePortalExit (env : Env) : ℚ × ℚ :=
  (env.exitRand.1 * 300 + 50, env.exitRand.2 * 300 + 50)

/-- Source `getCurrentPipeGap`: gap narrows by 15 for every 10 coins, floored at
`MIN_PIPE_GAP`. -/
def getCurrentPipeGap (coins : ℚ) : ℚ :=
  let reduction := (⌊coins / 10⌋ : ℚ) * 15
  max MIN_PIPE_GAP (INITIAL_PIPE_GAP - reduction)

/-- Source `getCurrentTheme`: colour theme index `Math.floor(coins / 20)`. -/
def getCurrentTheme (coins : ℚ) : ℤ := ⌊coins / 20⌋

/-- The `Set.add` operation on the used-portal registry: insert the id only when absent. -/
def addUsedId (id : String) (l : List String) : List String :=
  if id ∈ l then l else id :: l

/-- The timeout game-over toast text (`"Time's up! Game Over!"`). -/
def timeUpMessage : String := "Time\x27s up! Game Over!"

/-- The collision game-over toast text
(`` `Game Over! Total Coins: ${newCoins}` ``). -/
def collisionMessage (coins : ℚ) : String :=
  "Game Over! Total Coins: " ++ toString coins

/-- The initial state produced by `useState` and restored by `resetGame`. -/
def initialGameState : GameState :=
  { birdX := 200, birdY := 250, birdDirX := 0, birdDirY := 0
    pipes := [], coins := 0, gameStarted := false, gameOver := false
    inSpecialWorld := false, worldCoins := [], colorTheme := 0
    portalTimer := 10, portalExit := none, enteredPortal := none
    frogsEaten := 0, isEating := false, usedPortalIds := [] }

/-! ### The per-pipe collision / portal / passage scan

The source iterates `newPipes.forEach(pipe => ...)`, mutating the closure
variables `newGameOver`, `newCoins`, `newInSpecialWorld`, `newWorldCoins`,
`newUsedPortalIds` and the `passed` flag of the pipe objects in place.  This
is modelled as a left-to-right scan threading an accumulator and rebuilding
the pipe list.  The `entered` field records the `enteredPortal` object the
source constructs inside the entry branch; note that the `return` statement
there returns from the `forEach` callback (whose result `Array.forEach`
discards), so the constructed state object — including `enteredPortal`,
`portalTimer: 10` and `portalExit` — never reaches the component state; only
the closure mutations survive.  The scan therefore returns `entered` to the
caller, and `step` below faithfully ignores it. -/

structure ScanAcc where
  gameOver : Bool
  coins : ℚ
  inSpecialWorld : Bool
  worldCoins : List Frog
  usedPortalIds : List String
  entered : Option EnteredPortal

/-- The trailing passage check of the `forEach` body: first tick with the
bird's left edge past the pipe's right edge marks the pipe passed and awards
3 coins for a portal pipe, 1 otherwise. -/
def passCheck (birdLeft : ℚ) (acc : ScanAcc) (pipe : Pipe) : ScanAcc × Pipe :=
  if pipe.passed = false ∧ birdLeft > pipe.x + PIPE_WIDTH then
    ({ acc with coins := acc.coins + (if pipe.isSpecial then 3 else 1) },
     { pipe with passed := true })
  else (acc, pipe)

/-- One iteration of the `forEach` body.  The overlap guard also requires the
pipe's id (read as `pipe.id || ''`) to be outside the used-portal registry.
On bonus-world entry the source `return`s from the callback, skipping the
passage check for that pipe on that tick. -/
def processPipe (env : Env) (birdX birdY : ℚ) (acc : ScanAcc) (pipe : Pipe) :
    ScanAcc × Pipe :=
  let birdLeft := birdX
  let birdRight := birdX + BIRD_SIZE
  let birdTop := birdY
  let birdBottom := birdY + BIRD_SIZE
  let pipeLeft := pipe.x
  let pipeRight := pipe.x + PIPE_WIDTH
  if birdRight > pipeLeft ∧ birdLeft < pipeRight ∧ pipe.id ∉ acc.usedPortalIds then
    if pipe.isSpecial then
      let portalTop := pipe.topHeight + pipe.gap * 0.3
      let portalBottom := pipe.topHeight + pipe.gap * 0.7
      if birdTop ≥ portalTop ∧ birdBottom ≤ portalBottom then
        if acc.inSpecialWorld = false ∧ pipe.id ≠ "" then
          ({ acc with
               inSpecialWorld := true
               worldCoins := generateWorldCoins env
               coins := acc.coins + 5
               usedPortalIds := addUsedId pipe.id acc.usedPortalIds
               entered := some { x := pipe.x, topHeight := pipe.topHeight,
                                 gap := pipe.gap, id := pipe.id } },
           pipe)
        else
          passCheck birdLeft acc pipe
      else if birdTop < pipe.topHeight ∨ birdBottom > pipe.topHeight + pipe.gap then
        passCheck birdLeft { acc with gameOver := true } pipe
      else
        passCheck birdLeft acc pipe
    else
      if birdTop < pipe.topHeight ∨ birdBottom > pipe.topHeight + pipe.gap then
        passCheck birdLeft { acc with gameOver := true } pipe
      else
        passCheck birdLeft acc pipe
  else
    passCheck birdLeft acc pipe

/-- The whole `forEach` scan over the pipe list. -/
def processPipes (env : Env) (birdX birdY : ℚ) :
    ScanAcc → List Pipe → ScanAcc × List Pipe
  | acc, [] => (acc, [])
  | acc, p :: ps =>
    let r1 := processPipe env birdX birdY acc p
    let r2 := processPipes env birdX birdY r1.1 ps
    (r2.1, r1.2 :: r2.2)

/-! ### The tick function -/

/-- Horizontal displacement from the held keys; the source assigns for `a`
then for `d`, so `d` wins when both are held. -/
def birdDirectionX (inp : Input) : ℚ :=
  if inp.keyD then MOVE_SPEED else if inp.keyA then -MOVE_SPEED else 0

/-- Vertical displacement from the held keys; the source assigns for `w`
then for `s`, so `s` wins when both are held. -/
def birdDirectionY (inp : Input) : ℚ :=
  if inp.keyS then MOVE_SPEED else if inp.keyW then -MOVE_SPEED else 0

/-- Source expression `Math.max(0, Math.min(370, prev.birdX + newDirectionX))`. -/
def newBirdX (s : GameState) (inp : Input) : ℚ :=
  max 0 (min 370 (s.birdX + birdDirectionX inp))

/-- Source expression `Math.max(0, Math.min(470, prev.birdY + newDirectionY))`. -/
def newBirdY (s : GameState) (inp : Input) : ℚ :=
  max 0 (min 470 (s.birdY + birdDirectionY inp))

/-- Scroll every pipe left by `PIPE_SPEED` and drop pipes fully past the
left boundary. -/
def movePipes (pipes : List Pipe) : List Pipe :=
  (pipes.map fun p => { p with x := p.x - PIPE_SPEED }).filter
    fun p => p.x > -PIPE_WIDTH

/-- Append a fresh pipe at `x = 400` when the list is empty or the
most-recently-spawned pipe has scrolled past `x = 200`; the gap comes from
`getCurrentPipeGap` at the previous tick's coins. -/
def spawnPipes (coins : ℚ) (env : Env) (pipes : List Pipe) : List Pipe :=
  let needSpawn : Bool := match pipes.getLast? with
    | none => true
    | some p => decide (p.x < 200)
  if needSpawn then
    pipes ++ [{ x := 400
                topHeight := env.spawnHeightRand * 200 + 50
                passed := false
                isSpecial := decide (env.spawnSpecialRand < SPECIAL_PIPE_CHANCE)
                gap := getCurrentPipeGap coins
                id := env.spawnId }]
  else pipes

/-- The pipe list the scan operates on: moved, filtered, possibly spawned. -/
def pipesAfterMotion (s : GameState) (env : Env) : List Pipe :=
  spawnPipes s.coins env (movePipes s.pipes)

/-- The scan accumulator seeded from the previous state; `entered` starts
out empty each tick. -/
def initScanAcc (s : GameState) : ScanAcc :=
  { gameOver := s.gameOver, coins := s.coins, inSpecialWorld := s.inSpecialWorld
    worldCoins := s.worldCoins, usedPortalIds := s.usedPortalIds, entered := none }

/-- The full pipe scan of a primary-world tick. -/
def primaryScan (s : GameState) (inp : Input) (env : Env) : ScanAcc × List Pipe :=
  processPipes env (newBirdX s inp) (newBirdY s inp) (initScanAcc s)
    (pipesAfterMotion s env)

/-- A primary-world tick: move the bird (clamped), scroll/spawn pipes, run
the collision/portal/passage scan, and assemble the final returned state.
`portalTimer`, `portalExit`, `enteredPortal`, `frogsEaten` and `isEating`
are returned unchanged from the previous state (the object the portal-entry
branch builds is discarded by `forEach`, see `processPipe`); `colorTheme` is
computed from the coins at the start of the tick. -/
def primaryStep (s : GameState) (inp : Input) (env : Env) : GameState :=
  let r := primaryScan s inp env
  { s with
      birdX := newBirdX s inp
      birdY := newBirdY s inp
      birdDirX := birdDirectionX inp
      birdDirY := birdDirectionY inp
      pipes := r.2
      coins := r.1.coins
      gameOver := r.1.gameOver
      inSpecialWorld := r.1.inSpecialWorld
      worldCoins := r.1.worldCoins
      colorTheme := getCurrentTheme s.coins
      usedPortalIds := r.1.usedPortalIds }

/-- Accumulator of the frog-collection pass (`newCoins`, `newFrogsEaten`,
`newIsEating`; the latter starts `false` every special-world tick). -/
structure EatAcc where
  coins : ℚ
  frogsEaten : ℕ
  isEating : Bool
deriving DecidableEq

/-- The frog-collection `map`: an uncollected frog within distance 25 of the
player is marked collected, awards 2 coins, increments the growth counter
and raises the eating flag.  The source compares
`Math.sqrt((bx-fx)^2+(by-fy)^2) < 25`; this is embedded as the equivalent
squared comparison (see `sqrt_lt_iff_lt_sq`). -/
def collectFrogs (px py : ℚ) : EatAcc → List Frog → EatAcc × List Frog
  | acc, [] => (acc, [])
  | acc, f :: fs =>
    if f.collected = false ∧ (px - f.x) ^ 2 + (py - f.y) ^ 2 < 25 ^ 2 then
      let r := collectFrogs px py
        { coins := acc.coins + 2, frogsEaten := acc.frogsEaten + 1,
          isEating := true } fs
      (r.1, { f with collected := true } :: r.2)
    else
      let r := collectFrogs px py acc fs
      (r.1, f :: r.2)

/-- A bonus-world tick: lazily create the exit point if absent, count the
timer down by `16/1000`, terminate with the timeout game-over (storing a
countdown of exactly 0 and leaving every other field untouched), otherwise
collect frogs and test the exit.  Within exit radius 30 (squared comparison
as in `collectFrogs`) the session ends: the bird is placed at the stored
portal's clamped gap center when `enteredPortal` is present and at the
default `(200, 250)` otherwise, the frog list is cleared, the timer is reset
to 10 and the exit point and portal memory are cleared, while the
used-portal registry is kept. -/
def specialStep (s : GameState) (inp : Input) (env : Env) : GameState :=
  let nx := newBirdX s inp
  let ny := newBirdY s inp
  let portalExit0 := match s.portalExit with
    | none => some (generatePortalExit env)
    | some e => some e
  let newPortalTimer := s.portalTimer - 16 / 1000
  if newPortalTimer ≤ 0 then
    { s with gameOver := true, portalTimer := 0 }
  else
    let r := collectFrogs nx ny
      { coins := s.coins, frogsEaten := s.frogsEaten, isEating := false }
      s.worldCoins
    match portalExit0 with
    | some ex =>
      if (nx - ex.1) ^ 2 + (ny - ex.2) ^ 2 < 30 ^ 2 then
        let ret : ℚ × ℚ := match s.enteredPortal with
          | some ep =>
            (max 0 (min 370 (ep.x + PIPE_WIDTH / 2 - BIRD_SIZE / 2)),
             max 0 (min 470 (ep.topHeight + ep.gap / 2 - BIRD_SIZE / 2)))
          | none => (200, 250)
        { s with
            birdX := ret.1
            birdY := ret.2
            birdDirX := birdDirectionX inp
            birdDirY := birdDirectionY inp
            coins := r.1.coins
            inSpecialWorld := false
            worldCoins := []
            colorTheme := getCurrentTheme s.coins
            portalTimer := 10
            portalExit := none
            enteredPortal := none
            frogsEaten := r.1.frogsEaten
            isEating := r.1.isEating }
      else
        { s with
            birdX := nx
            birdY := ny
            birdDirX := birdDirectionX inp
            birdDirY := birdDirectionY inp
            coins := r.1.coins
            worldCoins := r.2
            colorTheme := getCurrentTheme s.coins
            portalTimer := newPortalTimer
            portalExit := portalExit0
            frogsEaten := r.1.frogsEaten
            isEating := r.1.isEating }
    | none =>
      { s with
          birdX := nx
          birdY := ny
          birdDirX := birdDirectionX inp
          birdDirY := birdDirectionY inp
          coins := r.1.coins
          worldCoins := r.2
          colorTheme := getCurrentTheme s.coins
          portalTimer := newPortalTimer
          portalExit := portalExit0
          frogsEaten := r.1.frogsEaten
          isEating := r.1.isEating }

/-- One tick of the game-loop `setState` updater: the primary-world branch
when `prev.inSpecialWorld` is false, the bonus-world branch otherwise.  The
scheduler invokes it only while `gameStarted ∧ ¬gameOver`. -/
def step (s : GameState) (inp : Input) (env : Env) : GameState :=
  if s.inSpecialWorld = false then primaryStep s inp env else specialStep s inp env

/-! ### The body-segment follow algorithm (`updateBodySegments`)

The source computes genuine square roots here (not just threshold
comparisons), so this component is modelled over `ℝ`. -/

/-- The follow distance as a real number. -/
noncomputable def FOLLOW_DIST_R : ℝ := (SEGMENT_FOLLOW_DISTANCE : ℝ)

/-- Euclidean distance as the source computes it:
`Math.sqrt(dx*dx + dy*dy)`. -/
noncomputable def segDist (p q : ℝ × ℝ) : ℝ :=
  Real.sqrt ((p.1 - q.1) * (p.1 - q.1) + (p.2 - q.2) * (p.2 - q.2))

/-- One follow update: when the distance from the predecessor's new position
to the target (the segment's previous position) exceeds the follow distance,
move the segment toward the predecessor by exactly enough to restore that
distance (`prev - d * (FOLLOW/distance)`); otherwise keep the target. -/
noncomputable def followStep (pred target : ℝ × ℝ) : ℝ × ℝ :=
  let dx := pred.1 - target.1
  let dy := pred.2 - target.2
  let distance := Real.sqrt (dx * dx + dy * dy)
  if distance > FOLLOW_DIST_R then
    let scale := FOLLOW_DIST_R / distance
    (pred.1 - dx * scale, pred.2 - dy * scale)
  else target

/-- The loop body for indices `i ≥ 1`: each segment follows the previous new
segment, with `currentSegments[i] || {x: prev.x - FOLLOW, y: prev.y}` as the
target (segments beyond the previously-existing count are seeded directly
behind their predecessor at the follow distance). -/
noncomputable def segChainAux : (ℝ × ℝ) → List (ℝ × ℝ) → ℕ → List (ℝ × ℝ)
  | _, _, 0 => []
  | pred, old, k + 1 =>
    let target := old.headD (pred.1 - FOLLOW_DIST_R, pred.2)
    let s := followStep pred target
    s :: segChainAux s old.tail k

/-- Source `updateBodySegments`: regenerate the chain of `min 10 frogsEaten`
trailing segments from the new head position and the previous segment
positions.  The first segment follows the head (placed directly behind it
when no previous segments exist); later segments follow their predecessor as
in `segChainAux`. -/
noncomputable def updateBodySegments (headX headY : ℝ) (cur : List (ℝ × ℝ))
    (frogsEaten : ℕ) : List (ℝ × ℝ) :=
  match min 10 frogsEaten with
  | 0 => []
  | k + 1 =>
    let first := match cur with
      | [] => (headX - FOLLOW_DIST_R, headY)
      | p :: _ => followStep (headX, headY) p
    first :: segChainAux first cur.tail k

/-- Justification for embedding the source's `Math.sqrt d < r` tests as the
squared comparison `d < r ^ 2` in the computable `ℚ` part of the model. -/
theorem sqrt_lt_iff_lt_sq (d r : ℝ) (hr : 0 < r) : Real.sqrt d < r ↔ d < r ^ 2 :=
  Real.sqrt_lt' hr

/-! ### Helper notions for stating the scan's behaviour -/

/-- Effect of one tick on a pipe's `passed` flag: set when the bird's left
edge is past the pipe's right edge, kept otherwise. -/
def passedUpdate (x : ℚ) (p : Pipe) : Pipe :=
  { p with passed := p.passed || decide (x > p.x + PIPE_WIDTH) }

/-- The passage reward a single pipe yields this tick: its fixed reward
(3 for a portal pipe, 1 for a plain one) exactly when it is newly passed. -/
def pipePassReward (x : ℚ) (p : Pipe) : ℚ :=
  if p.passed = false ∧ x > p.x + PIPE_WIDTH then (if p.isSpecial then 3 else 1) else 0

/-- Total passage reward of a pipe list this tick. -/
def passRewardSum (x : ℚ) (ps : List Pipe) : ℚ :=
  (ps.map (pipePassReward x)).sum

/-- The accumulator produced by the bonus-world entry branch. -/
def entryAcc (env : Env) (acc : ScanAcc) (p : Pipe) : ScanAcc :=
  { acc with
      inSpecialWorld := true
      worldCoins := generateWorldCoins env
      coins := acc.coins + 5
      usedPortalIds := addUsedId p.id acc.usedPortalIds
      entered := some { x := p.x, topHeight := p.topHeight, gap := p.gap, id := p.id } }

/-! ### Per-pipe lemmas about the scan body -/

theorem mem_addUsedId_of_mem {a b : String} {l : List String} (h : a ∈ l) :
    a ∈ addUsedId b l := by
  unfold addUsedId; split_ifs <;> simp [h]

theorem mem_of_mem_addUsedId {a b : String} {l : List String}
    (h : a ∈ addUsedId b l) : a = b ∨ a ∈ l := by
  unfold addUsedId at h
  split_ifs at h with hb
  · exact Or.inr h
  · rcases List.mem_cons.mp h with h | h
    · exact Or.inl h
    · exact Or.inr h

theorem self_mem_addUsedId (b : String) (l : List String) : b ∈ addUsedId b l := by
  unfold addUsedId; split_ifs with hb
  · exact hb
  · exact List.mem_cons_self b l

set_option maxHeartbeats 1600000 in
/-- The pipe returned by one `forEach` iteration is the input pipe with the
passage flag updated. -/
theorem processPipe_snd (env : Env) (x y : ℚ) (acc : ScanAcc) (p : Pipe) :
    (processPipe env x y acc p).2 = passedUpdate x p := by
  obtain ⟨px, pth, ppass, pspec, pgap, pid⟩ := p
  unfold processPipe passCheck passedUpdate
  cases ppass <;> split_ifs <;> simp_all <;> (try (split_ifs <;> simp_all)) <;>
    linarith

/-- One scan iteration never removes an id from the used-portal registry. -/
theorem processPipe_used_mono (env : Env) (x y : ℚ) (acc : ScanAcc) (p : Pipe)
    {id : String} (h : id ∈ acc.usedPortalIds) :
    id ∈ (processPipe env x y acc p).1.usedPortalIds := by
  simp only [processPipe, passCheck]
  split_ifs <;> simp_all [mem_addUsedId_of_mem]

/-- Any id in the registry after one scan iteration was already there, or is
the id of this pipe, recorded together with a bonus-world entry through it. -/
theorem processPipe_used_new (env : Env) (x y : ℚ) (acc : ScanAcc) (p : Pipe)
    {id : String} (h : id ∈ (processPipe env x y acc p).1.usedPortalIds) :
    id ∈ acc.usedPortalIds ∨
      (id = p.id ∧ id ∉ acc.usedPortalIds ∧ acc.inSpecialWorld = false ∧ id ≠ "" ∧
        (processPipe env x y acc p).1.entered =
          some { x := p.x, topHeight := p.topHeight, gap := p.gap, id := p.id } ∧
        (processPipe env x y acc p).1.inSpecialWorld = true) := by
  simp only [processPipe, passCheck] at h ⊢
  split_ifs at h ⊢ <;>
    first
    | exact Or.inl h
    | · rcases mem_of_mem_addUsedId h with h' | h'
        · subst h'; simp_all
        · exact Or.inl h'

/-- A bonus-world session already active at this iteration stays active and
the recorded entry is unchanged. -/
theorem processPipe_inSpecial_mono (env : Env) (x y : ℚ) (acc : ScanAcc) (p : Pipe)
    (h : acc.inSpecialWorld = true) :
    (processPipe env x y acc p).1.inSpecialWorld = true ∧
      (processPipe env x y acc p).1.entered = acc.entered := by
  simp only [processPipe, passCheck]
  split_ifs <;> simp_all

/-- When an entry is recorded by one scan iteration, it was either recorded
before, or it is a fresh entry through this pipe: the pipe's id is nonempty,
was unregistered, and is now registered. -/
theorem processPipe_entered_some (env : Env) (x y : ℚ) (acc : ScanAcc) (p : Pipe)
    {ep : EnteredPortal} (h : (processPipe env x y acc p).1.entered = some ep) :
    acc.entered = some ep ∨
      (ep = { x := p.x, topHeight := p.topHeight, gap := p.gap, id := p.id } ∧
        acc.inSpecialWorld = false ∧ ep.id ≠ "" ∧ ep.id ∉ acc.usedPortalIds ∧
        ep.id ∈ (processPipe env x y acc p).1.usedPortalIds ∧
        (processPipe env x y acc p).1.inSpecialWorld = true) := by
  simp only [processPipe, passCheck] at h ⊢
  split_ifs at h ⊢ <;>
    first
    | exact Or.inl h
    | · right
        have he : ep = { x := p.x, topHeight := p.topHeight, gap := p.gap, id := p.id } := by
          have := h.symm
          simpa using this
        subst he
        simp_all [self_mem_addUsedId]

/-- Ledger of one scan iteration: the coins grow by the entry bonus of 5
exactly when this iteration records a bonus-world entry, plus this pipe's
passage reward exactly when the pipe is newly passed. -/
theorem processPipe_coins (env : Env) (x y : ℚ) (acc : ScanAcc) (p : Pipe)
    (h : acc.entered = none ∨ acc.inSpecialWorld = true) :
    (processPipe env x y acc p).1.coins =
      acc.coins +
        (if (processPipe env x y acc p).1.entered = acc.entered then 0 else 5) +
        pipePassReward x p := by
  simp only [processPipe, passCheck, pipePassReward]
  split_ifs <;> rcases h with h | h <;> simp_all <;> try linarith

/-- The scan invariant "a recorded entry forces an active session" is
preserved by one iteration. -/
theorem processPipe_hyp (env : Env) (x y : ℚ) (acc : ScanAcc) (p : Pipe)
    (h : acc.entered = none ∨ acc.inSpecialWorld = true) :
    (processPipe env x y acc p).1.entered = none ∨
      (processPipe env x y acc p).1.inSpecialWorld = true := by
  simp only [processPipe, passCheck]
  split_ifs <;> rcases h with h | h <;> simp_all

/-- One scan iteration never decreases the coin counter. -/
theorem processPipe_coins_mono (env : Env) (x y : ℚ) (acc : ScanAcc) (p : Pipe) :
    acc.coins ≤ (processPipe env x y acc p).1.coins := by
  simp only [processPipe, passCheck]
  split_ifs <;> simp_all <;> split_ifs <;> linarith

/-- One scan iteration leaves the frog list alone or replaces it with the
freshly generated bonus-world batch. -/
theorem processPipe_worldCoins (env : Env) (x y : ℚ) (acc : ScanAcc) (p : Pipe) :
    (processPipe env x y acc p).1.worldCoins = acc.worldCoins ∨
      (processPipe env x y acc p).1.worldCoins = generateWorldCoins env := by
  simp only [processPipe, passCheck]
  split_ifs <;> simp_all

/-- A recorded entry changing across one iteration means that iteration
activated the bonus world. -/
theorem processPipe_entered_change (env : Env) (x y : ℚ) (acc : ScanAcc) (p : Pipe)
    (h : (processPipe env x y acc p).1.entered ≠ acc.entered) :
    (processPipe env x y acc p).1.inSpecialWorld = true := by
  simp only [processPipe, passCheck] at h ⊢
  split_ifs at h ⊢ <;> simp_all

/-- The sum `passRewardSum` unfolds over a cons cell. -/
theorem passRewardSum_cons (x : ℚ) (p : Pipe) (ps : List Pipe) :
    passRewardSum x (p :: ps) = pipePassReward x p + passRewardSum x ps := by
  simp [passRewardSum]

/-- Passage rewards are nonnegative. -/
theorem pipePassReward_nonneg (x : ℚ) (p : Pipe) : 0 ≤ pipePassReward x p := by
  unfold pipePassReward
  split_ifs <;> norm_num

theorem passRewardSum_nonneg (x : ℚ) (ps : List Pipe) : 0 ≤ passRewardSum x ps := by
  induction ps with
  | nil => simp [passRewardSum]
  | cons p ps ih =>
    rw [passRewardSum_cons]
    have := pipePassReward_nonneg x p
    linarith

/-- The scan never removes an id from the used-portal registry. -/
theorem processPipes_used_mono (env : Env) (x y : ℚ) (ps : List Pipe) :
    ∀ (acc : ScanAcc) {id : String}, id ∈ acc.usedPortalIds →
      id ∈ (processPipes env x y acc ps).1.usedPortalIds := by
  induction ps with
  | nil => intro acc id h; simpa [processPipes] using h
  | cons p ps ih =>
    intro acc id h
    simp only [processPipes]
    exact ih _ (processPipe_used_mono env x y acc p h)

/-- A session active when the scan starts is still active when it ends, and
the recorded entry is untouched. -/
theorem processPipes_inSpecial_mono (env : Env) (x y : ℚ) (ps : List Pipe) :
    ∀ (acc : ScanAcc), acc.inSpecialWorld = true →
      (processPipes env x y acc ps).1.inSpecialWorld = true ∧
        (processPipes env x y acc ps).1.entered = acc.entered := by
  induction ps with
  | nil => intro acc h; simpa [processPipes] using h
  | cons p ps ih =>
    intro acc h
    simp only [processPipes]
    obtain ⟨h1, h2⟩ := processPipe_inSpecial_mono env x y acc p h
    obtain ⟨h3, h4⟩ := ih _ h1
    exact ⟨h3, h4.trans h2⟩

/-- Every id the scan adds to the registry belongs to a bonus-world entry
recorded by this very scan. -/
theorem processPipes_used_new (env : Env) (x y : ℚ) (ps : List Pipe) :
    ∀ (acc : ScanAcc) {id : String},
      id ∈ (processPipes env x y acc ps).1.usedPortalIds →
      id ∈ acc.usedPortalIds ∨
        (id ∉ acc.usedPortalIds ∧
          ∃ ep, (processPipes env x y acc ps).1.entered = some ep ∧ ep.id = id) := by
  induction ps with
  | nil =>
    intro acc id h
    simp only [processPipes] at h
    exact Or.inl h
  | cons p ps ih =>
    intro acc id h
    simp only [processPipes] at h ⊢
    rcases ih _ h with h1 | ⟨hnot, ep, hep, hid⟩
    · rcases processPipe_used_new env x y acc p h1 with h2 | ⟨hid, hnot, _, _, hent, hsp⟩
      · exact Or.inl h2
      · subst hid
        obtain ⟨_, h4⟩ := processPipes_inSpecial_mono env x y ps _ hsp
        exact Or.inr ⟨hnot,
          ⟨{ x := p.x, topHeight := p.topHeight, gap := p.gap, id := p.id },
            h4.trans hent, rfl⟩⟩
    · by_cases hacc : id ∈ acc.usedPortalIds
      · exact Or.inl hacc
      · exact Or.inr ⟨hacc, ep, hep, hid⟩

/-- Every entry the scan records is fresh: through a special pipe whose
nonempty id was unregistered before the scan and is registered after it,
with the session active at the end. -/
theorem processPipes_entered_some (env : Env) (x y : ℚ) (ps : List Pipe) :
    ∀ (acc : ScanAcc) {ep : EnteredPortal},
      (processPipes env x y acc ps).1.entered = some ep →
      acc.entered = some ep ∨
        (acc.inSpecialWorld = false ∧ ep.id ≠ "" ∧ ep.id ∉ acc.usedPortalIds ∧
          ep.id ∈ (processPipes env x y acc ps).1.usedPortalIds ∧
          (processPipes env x y acc ps).1.inSpecialWorld = true) := by
  induction ps with
  | nil =>
    intro acc ep h
    simp only [processPipes] at h
    exact Or.inl h
  | cons p ps ih =>
    intro acc ep h
    simp only [processPipes] at h ⊢
    rcases ih _ h with h1 | ⟨hsp, hid, hnot, hmem, hact⟩
    · rcases processPipe_entered_some env x y acc p h1 with h2 | ⟨hep, hsp, hid, hnot, hmem, hact⟩
      · exact Or.inl h2
      · refine Or.inr ⟨hsp, hid, hnot, ?_, ?_⟩
        · exact processPipes_used_mono env x y ps _ hmem
        · exact (processPipes_inSpecial_mono env x y ps _ hact).1
    · refine Or.inr ⟨?_, hid, ?_, hmem, hact⟩
      · by_contra hc
        have : acc.inSpecialWorld = true := by
          cases hx : acc.inSpecialWorld
          · exact absurd hx hc
          · rfl
        exact absurd (processPipe_inSpecial_mono env x y acc p this).1 (by simp [hsp])
      · intro hc
        exact hnot (processPipe_used_mono env x y acc p hc)

/-- The scan returns the input pipes with passage flags updated and nothing
else changed. -/
theorem processPipes_snd (env : Env) (x y : ℚ) (ps : List Pipe) :
    ∀ (acc : ScanAcc), (processPipes env x y acc ps).2 = ps.map (passedUpdate x) := by
  induction ps with
  | nil => intro acc; simp [processPipes]
  | cons p ps ih =>
    intro acc
    simp only [processPipes, List.map_cons]
    rw [processPipe_snd env x y acc p, ih _]

/-- The scan invariant "a recorded entry forces an active session" is
preserved by the whole scan. -/
theorem processPipes_hyp (env : Env) (x y : ℚ) (ps : List Pipe) :
    ∀ (acc : ScanAcc), (acc.entered = none ∨ acc.inSpecialWorld = true) →
      ((processPipes env x y acc ps).1.entered = none ∨
        (processPipes env x y acc ps).1.inSpecialWorld = true) := by
  induction ps with
  | nil => intro acc h; simpa [processPipes] using h
  | cons p ps ih =>
    intro acc h
    simp only [processPipes]
    exact ih _ (processPipe_hyp env x y acc p h)

/-- Ledger of the whole scan: the final coins are the initial coins, plus
the entry bonus of 5 exactly when the scan records a bonus-world entry, plus
the passage rewards of the newly passed pipes. -/
theorem processPipes_coins (env : Env) (x y : ℚ) (ps : List Pipe) :
    ∀ (acc : ScanAcc), (acc.entered = none ∨ acc.inSpecialWorld = true) →
      (processPipes env x y acc ps).1.coins =
        acc.coins +
          (if (processPipes env x y acc ps).1.entered = acc.entered then 0 else 5) +
          passRewardSum x ps := by
  induction ps with
  | nil => intro acc h; simp [processPipes, passRewardSum]
  | cons p ps ih =>
    intro acc h
    simp only [processPipes]
    rw [passRewardSum_cons]
    have hpp := processPipe_coins env x y acc p h
    have hih := ih _ (processPipe_hyp env x y acc p h)
    by_cases hch : (processPipe env x y acc p).1.entered = acc.entered
    · rw [hch] at hpp
      simp only [eq_self_iff_true, if_true] at hpp
      simp only [hch] at hih
      rw [hih, hpp]
      ring
    · have hact := processPipe_entered_change env x y acc p hch
      have hpres := (processPipes_inSpecial_mono env x y ps _ hact).2
      simp only [if_neg hch] at hpp
      simp only [hpres, eq_self_iff_true, if_true] at hih
      simp only [hpres, if_neg hch]
      rw [hih, hpp]
      ring

/-- The scan never decreases the coin counter. -/
theorem processPipes_coins_mono (env : Env) (x y : ℚ) (ps : List Pipe) :
    ∀ (acc : ScanAcc), acc.coins ≤ (processPipes env x y acc ps).1.coins := by
  induction ps with
  | nil => intro acc; simp [processPipes]
  | cons p ps ih =>
    intro acc
    simp only [processPipes]
    exact le_trans (processPipe_coins_mono env x y acc p) (ih _)

/-- The scan leaves the frog list alone or replaces it with the freshly
generated bonus-world batch. -/
theorem processPipes_worldCoins (env : Env) (x y : ℚ) (ps : List Pipe) :
    ∀ (acc : ScanAcc),
      (processPipes env x y acc ps).1.worldCoins = acc.worldCoins ∨
        (processPipes env x y acc ps).1.worldCoins = generateWorldCoins env := by
  induction ps with
  | nil => intro acc; simp [processPipes]
  | cons p ps ih =>
    intro acc
    simp only [processPipes]
    rcases ih (processPipe env x y acc p).1 with h | h
    · rcases processPipe_worldCoins env x y acc p with h' | h'
      · exact Or.inl (h.trans h')
      · exact Or.inr (h.trans h')
    · exact Or.inr h

/-! ### Classification of one scan iteration on an overlapping portal pipe -/

/-- Bonus-world entry: player fully inside the portal window of a fresh,
special, overlapping pipe while the session is inactive. -/
theorem processPipe_entry (env : Env) (x y : ℚ) (acc : ScanAcc) (p : Pipe)
    (hov : x + BIRD_SIZE > p.x ∧ x < p.x + PIPE_WIDTH)
    (hunused : p.id ∉ acc.usedPortalIds)
    (hspec : p.isSpecial = true)
    (hwin : y ≥ p.topHeight + p.gap * 0.3 ∧ y + BIRD_SIZE ≤ p.topHeight + p.gap * 0.7)
    (hworld : acc.inSpecialWorld = false) (hid : p.id ≠ "") :
    processPipe env x y acc p = (entryAcc env acc p, p) := by
  simp only [processPipe, passCheck, entryAcc]
  rw [if_pos ⟨hov.1, hov.2, hunused⟩, if_pos hspec, if_pos ⟨hwin.1, hwin.2⟩,
    if_pos ⟨hworld, hid⟩]

/-- Collision game-over: overlapping a fresh special pipe, not inside the
portal window, and outside the full gap bounds. -/
theorem processPipe_collide (env : Env) (x y : ℚ) (acc : ScanAcc) (p : Pipe)
    (hov : x + BIRD_SIZE > p.x ∧ x < p.x + PIPE_WIDTH)
    (hunused : p.id ∉ acc.usedPortalIds)
    (hspec : p.isSpecial = true)
    (hwin : ¬(y ≥ p.topHeight + p.gap * 0.3 ∧ y + BIRD_SIZE ≤ p.topHeight + p.gap * 0.7))
    (hout : y < p.topHeight ∨ y + BIRD_SIZE > p.topHeight + p.gap) :
    processPipe env x y acc p = ({ acc with gameOver := true }, p) := by
  have hnp : ¬(p.passed = false ∧ x > p.x + PIPE_WIDTH) := by
    rintro ⟨-, hgt⟩
    exact absurd hov.2 (by linarith)
  simp only [processPipe, passCheck]
  rw [if_pos ⟨hov.1, hov.2, hunused⟩, if_pos hspec, if_neg hwin, if_pos hout,
    if_neg hnp]

/-- Safe passage: overlapping a fresh special pipe, inside the full gap but
not inside the portal window — neither an entry nor a game-over. -/
theorem processPipe_safe (env : Env) (x y : ℚ) (acc : ScanAcc) (p : Pipe)
    (hov : x + BIRD_SIZE > p.x ∧ x < p.x + PIPE_WIDTH)
    (hunused : p.id ∉ acc.usedPortalIds)
    (hspec : p.isSpecial = true)
    (hwin : ¬(y ≥ p.topHeight + p.gap * 0.3 ∧ y + BIRD_SIZE ≤ p.topHeight + p.gap * 0.7))
    (hout : ¬(y < p.topHeight ∨ y + BIRD_SIZE > p.topHeight + p.gap)) :
    processPipe env x y acc p = (acc, p) := by
  have hnp : ¬(p.passed = false ∧ x > p.x + PIPE_WIDTH) := by
    rintro ⟨-, hgt⟩
    exact absurd hov.2 (by linarith)
  simp only [processPipe, passCheck]
  rw [if_pos ⟨hov.1, hov.2, hunused⟩, if_pos hspec, if_neg hwin, if_neg hout,
    if_neg hnp]

/-- A pipe the bird neither overlaps nor newly passes leaves the iteration
untouched. -/
theorem processPipe_inert (env : Env) (x y : ℚ) (acc : ScanAcc) (p : Pipe)
    (hov : ¬(x + BIRD_SIZE > p.x ∧ x < p.x + PIPE_WIDTH ∧ p.id ∉ acc.usedPortalIds))
    (hnp : ¬(p.passed = false ∧ x > p.x + PIPE_WIDTH)) :
    processPipe env x y acc p = (acc, p) := by
  simp only [processPipe, passCheck]
  rw [if_neg hov, if_neg hnp]

/-! ### Step-level helper lemmas -/

/-- The tick takes the primary-world branch when the session is inactive. -/
theorem step_of_primary (s : GameState) (inp : Input) (env : Env)
    (h : s.inSpecialWorld = false) : step s inp env = primaryStep s inp env := by
  simp [step, h]

/-- The tick takes the bonus-world branch when the session is active. -/
theorem step_of_special (s : GameState) (inp : Input) (env : Env)
    (h : s.inSpecialWorld = true) : step s inp env = specialStep s inp env := by
  simp [step, h]

/-- The new bird position is clamped to the arena on the x axis. -/
theorem newBirdX_bounds (s : GameState) (inp : Input) :
    0 ≤ newBirdX s inp ∧ newBirdX s inp ≤ 370 :=
  ⟨le_max_left 0 _, max_le (by norm_num) (min_le_left _ _)⟩

/-- The new bird position is clamped to the arena on the y axis. -/
theorem newBirdY_bounds (s : GameState) (inp : Input) :
    0 ≤ newBirdY s inp ∧ newBirdY s inp ≤ 470 :=
  ⟨le_max_left 0 _, max_le (by norm_num) (min_le_left _ _)⟩

/-- A bonus-world tick never touches the used-portal registry. -/
theorem specialStep_usedPortalIds (s : GameState) (inp : Input) (env : Env) :
    (specialStep s inp env).usedPortalIds = s.usedPortalIds := by
  rcases hpe : s.portalExit with _ | e <;> simp only [specialStep, hpe] <;>
    split_ifs <;> rfl

/-- Frog collection never decreases the coin counter. -/
theorem collectFrogs_coins_mono (px py : ℚ) (fs : List Frog) :
    ∀ acc : EatAcc, acc.coins ≤ (collectFrogs px py acc fs).1.coins := by
  induction fs with
  | nil => intro acc; simp [collectFrogs]
  | cons f fs ih =>
    intro acc
    simp only [collectFrogs]
    split_ifs with h
    · have := ih ({ coins := acc.coins + 2, frogsEaten := acc.frogsEaten + 1, isEating := true } : EatAcc)
      calc acc.coins ≤ acc.coins + 2 := by linarith
        _ ≤ _ := this
    · exact ih acc

/-- When no frog is in reach, the collection pass changes nothing. -/
theorem collectFrogs_noneHit (px py : ℚ) (fs : List Frog)
    (h : ∀ f ∈ fs, ¬(f.collected = false ∧ (px - f.x) ^ 2 + (py - f.y) ^ 2 < 25 ^ 2)) :
    ∀ acc : EatAcc, collectFrogs px py acc fs = (acc, fs) := by
  induction fs with
  | nil => intro acc; simp [collectFrogs]
  | cons f fs ih =>
    intro acc
    simp only [collectFrogs]
    rw [if_neg (h f (List.mem_cons_self f fs))]
    have := ih (fun g hg => h g (List.mem_cons_of_mem f hg)) acc
    rw [this]

/-- A bonus-world tick never decreases the coin counter. -/
theorem specialStep_coins_mono (s : GameState) (inp : Input) (env : Env) :
    s.coins ≤ (specialStep s inp env).coins := by
  rcases hpe : s.portalExit with _ | e <;> simp only [specialStep, hpe] <;>
    split_ifs <;>
    first
    | exact le_refl s.coins
    | exact collectFrogs_coins_mono _ _ _ _

/-- The two game-over toast texts are distinct, whatever the coin total. -/
theorem timeUpMessage_ne_collisionMessage (c : ℚ) :
    timeUpMessage ≠ collisionMessage c := by
  intro h
  have hd := congrArg (fun s => s.data.head?) h
  simp only [timeUpMessage, collisionMessage, String.data_append] at hd
  simp at hd

/-! ### Lemmas about the follow algorithm -/

theorem FOLLOW_DIST_R_eq : FOLLOW_DIST_R = 25 := by
  norm_num [FOLLOW_DIST_R, SEGMENT_FOLLOW_DISTANCE]

theorem FOLLOW_DIST_R_pos : (0 : ℝ) < FOLLOW_DIST_R := by
  rw [FOLLOW_DIST_R_eq]; norm_num

/-- A segment within the follow distance of its predecessor does not move. -/
theorem followStep_of_le (pred target : ℝ × ℝ)
    (h : segDist pred target ≤ FOLLOW_DIST_R) : followStep pred target = target := by
  simp only [followStep, segDist] at h ⊢
  rw [if_neg (not_lt.mpr h)]

/-- A segment farther than the follow distance is pulled to exactly the
follow distance from its predecessor. -/
theorem followStep_of_gt (pred target : ℝ × ℝ)
    (h : segDist pred target > FOLLOW_DIST_R) :
    segDist pred (followStep pred target) = FOLLOW_DIST_R := by
  have hD : (0 : ℝ) < Real.sqrt ((pred.1 - target.1) * (pred.1 - target.1) +
      (pred.2 - target.2) * (pred.2 - target.2)) :=
    lt_trans FOLLOW_DIST_R_pos h
  set dx := pred.1 - target.1 with hdx
  set dy := pred.2 - target.2 with hdy
  set D := Real.sqrt (dx * dx + dy * dy) with hD_def
  have hc : (0 : ℝ) ≤ FOLLOW_DIST_R / D :=
    div_nonneg (le_of_lt FOLLOW_DIST_R_pos) (le_of_lt hD)
  simp only [followStep, segDist] at h ⊢
  rw [if_pos h]
  have h1 : pred.1 - (pred.1 - dx * (FOLLOW_DIST_R / D)) = dx * (FOLLOW_DIST_R / D) := by
    ring
  have h2 : pred.2 - (pred.2 - dy * (FOLLOW_DIST_R / D)) = dy * (FOLLOW_DIST_R / D) := by
    ring
  rw [h1, h2]
  have h3 : dx * (FOLLOW_DIST_R / D) * (dx * (FOLLOW_DIST_R / D)) +
      dy * (FOLLOW_DIST_R / D) * (dy * (FOLLOW_DIST_R / D)) =
      (FOLLOW_DIST_R / D) * (FOLLOW_DIST_R / D) * (dx * dx + dy * dy) := by
    ring
  rw [h3, show (FOLLOW_DIST_R / D) * (FOLLOW_DIST_R / D) * (dx * dx + dy * dy)
      = ((FOLLOW_DIST_R / D) * (FOLLOW_DIST_R / D)) * (dx * dx + dy * dy) from rfl,
    Real.sqrt_mul (mul_nonneg hc hc), Real.sqrt_mul_self hc, ← hD_def]
  field_simp

/-- Every segment the follow update produces ends within the follow distance
of its predecessor. -/
theorem followStep_dist_le (pred target : ℝ × ℝ) :
    segDist pred (followStep pred target) ≤ FOLLOW_DIST_R := by
  rcases le_or_lt (segDist pred target) FOLLOW_DIST_R with h | h
  · rw [followStep_of_le pred target h]; exact h
  · exact le_of_eq (followStep_of_gt pred target h)

theorem segChainAux_length (k : ℕ) :
    ∀ (pred : ℝ × ℝ) (old : List (ℝ × ℝ)), (segChainAux pred old k).length = k := by
  induction k with
  | zero => intro pred old; simp [segChainAux]
  | succ k ih => intro pred old; simp [segChainAux, ih]

theorem segChainAux_chain (k : ℕ) :
    ∀ (pred : ℝ × ℝ) (old : List (ℝ × ℝ)),
      List.Chain (fun a b => segDist a b ≤ FOLLOW_DIST_R) pred (segChainAux pred old k) := by
  induction k with
  | zero => intro pred old; simp [segChainAux]
  | succ k ih =>
    intro pred old
    simp only [segChainAux]
    exact List.Chain.cons (followStep_dist_le pred _) (ih _ _)

/-- The seeded first segment sits exactly at the follow distance behind the
head. -/
theorem segDist_seed (hx hy : ℝ) :
    segDist (hx, hy) (hx - FOLLOW_DIST_R, hy) = FOLLOW_DIST_R := by
  simp only [segDist]
  have h1 : hx - (hx - FOLLOW_DIST_R) = FOLLOW_DIST_R := by ring
  have h2 : hy - hy = 0 := by ring
  rw [h1, h2]
  rw [show FOLLOW_DIST_R * FOLLOW_DIST_R + 0 * 0 = FOLLOW_DIST_R * FOLLOW_DIST_R by ring]
  exact Real.sqrt_mul_self (le_of_lt FOLLOW_DIST_R_pos)

theorem updateBodySegments_length (hx hy : ℝ) (cur : List (ℝ × ℝ)) (n : ℕ) :
    (updateBodySegments hx hy cur n).length = min 10 n := by
  simp only [updateBodySegments]
  rcases hm : min 10 n with _ | k
  · simp
  · simp [segChainAux_length]

theorem updateBodySegments_chain (hx hy : ℝ) (cur : List (ℝ × ℝ)) (n : ℕ) :
    List.Chain (fun a b => segDist a b ≤ FOLLOW_DIST_R) (hx, hy)
      (updateBodySegments hx hy cur n) := by
  simp only [updateBodySegments]
  rcases hm : min 10 n with _ | k
  · exact List.Chain.nil
  · rcases cur with _ | ⟨p, rest⟩
    · exact List.Chain.cons (le_of_eq (segDist_seed hx hy)) (segChainAux_chain _ _ _)
    · exact List.Chain.cons (followStep_dist_le _ _) (segChainAux_chain _ _ _)

/-! ### Claim theorems -/

/-- C7: the obstacle gap function satisfies
`gap(score) = max(MIN_GAP, INITIAL_GAP - floor(score/10) * STEP)` (STEP = 15)
for every nonnegative integer score; in particular `gap 0 = INITIAL_PIPE_GAP`
and `gap 100 = max(MIN_PIPE_GAP, INITIAL_PIPE_GAP - 10 * 15) = 120`. -/
theorem claim_C7_gapFunction :
    (∀ n : ℕ, getCurrentPipeGap (n : ℚ)
        = max MIN_PIPE_GAP (INITIAL_PIPE_GAP - ((n / 10 : ℕ) : ℚ) * 15))
    ∧ getCurrentPipeGap 0 = INITIAL_PIPE_GAP
    ∧ getCurrentPipeGap 100 = max MIN_PIPE_GAP (INITIAL_PIPE_GAP - 10 * 15)
    ∧ getCurrentPipeGap 100 = 120 := by
  have hfl : ∀ n : ℕ, (⌊(n : ℚ) / 10⌋ : ℤ) = ((n / 10 : ℕ) : ℤ) := by
    intro n
    have h := Rat.floor_intCast_div_natCast (n : ℤ) 10
    push_cast at h
    rw [h]
    exact_mod_cast (Int.ofNat_ediv n 10).symm
  have hmain : ∀ n : ℕ, getCurrentPipeGap (n : ℚ)
      = max MIN_PIPE_GAP (INITIAL_PIPE_GAP - ((n / 10 : ℕ) : ℚ) * 15) := by
    intro n
    simp only [getCurrentPipeGap, hfl n]
    norm_cast
  refine ⟨hmain, ?_, ?_, ?_⟩
  · simp only [getCurrentPipeGap, MIN_PIPE_GAP, INITIAL_PIPE_GAP]
    norm_num
  · simp only [getCurrentPipeGap, MIN_PIPE_GAP, INITIAL_PIPE_GAP]
    norm_num
  · simp only [getCurrentPipeGap, MIN_PIPE_GAP, INITIAL_PIPE_GAP]
    norm_num

/-- C8: each tick the regenerated segment chain has length
`min 10 frogsEaten`; the distance from the head to the first segment and
between consecutive segments never exceeds the follow distance (with zero
epsilon in exact arithmetic); a segment moves only when its distance to its
predecessor exceeds the follow distance, and then lands at exactly that
distance. -/
theorem claim_C8_segmentChain :
    (∀ (hx hy : ℝ) (cur : List (ℝ × ℝ)) (n : ℕ),
        (updateBodySegments hx hy cur n).length = min 10 n)
    ∧ (∀ (hx hy : ℝ) (cur : List (ℝ × ℝ)) (n : ℕ),
        List.Chain (fun a b => segDist a b ≤ FOLLOW_DIST_R) (hx, hy)
          (updateBodySegments hx hy cur n))
    ∧ (∀ pred target : ℝ × ℝ, segDist pred target ≤ FOLLOW_DIST_R →
        followStep pred target = target)
    ∧ (∀ pred target : ℝ × ℝ, segDist pred target > FOLLOW_DIST_R →
        segDist pred (followStep pred target) = FOLLOW_DIST_R) :=
  ⟨updateBodySegments_length, updateBodySegments_chain, followStep_of_le,
    followStep_of_gt⟩

/-- Witness for C8 at concrete inputs: a one-segment chain has length
`min 10 1`, and a target at distance 5 ≤ 25 from its predecessor is left in
place by the follow update. -/
theorem claim_C8_segmentChain_witness :
    (updateBodySegments 0 0 [] 1).length = min 10 1 ∧
      followStep (0, 0) (3, 4) = (3, 4) := by
  have hdist : segDist (0, 0) (3, 4) ≤ FOLLOW_DIST_R := by
    have h25 : ((0 : ℝ) - 3) * ((0 : ℝ) - 3) + ((0 : ℝ) - 4) * ((0 : ℝ) - 4) = 5 * 5 := by
      norm_num
    have : segDist (0, 0) (3, 4) = 5 := by
      simp only [segDist, h25]
      exact Real.sqrt_mul_self (by norm_num)
    rw [this, FOLLOW_DIST_R_eq]
    norm_num
  exact ⟨claim_C8_segmentChain.1 0 0 [] 1,
    claim_C8_segmentChain.2.2.1 (0, 0) (3, 4) hdist⟩

/-- C10: no per-tick event ever decreases the coin counter, in either world,
and the reset command returns it to zero. -/
theorem claim_C10_coinsMonotone :
    (∀ (s : GameState) (inp : Input) (env : Env), s.coins ≤ (step s inp env).coins)
    ∧ initialGameState.coins = 0 := by
  constructor
  · intro s inp env
    cases hsw : s.inSpecialWorld
    · rw [step_of_primary s inp env hsw]
      have h := processPipes_coins_mono env (newBirdX s inp) (newBirdY s inp)
        (pipesAfterMotion s env) (initScanAcc s)
      simpa [primaryStep, primaryScan, initScanAcc] using h
    · rw [step_of_special s inp env hsw]
      exact specialStep_coins_mono s inp env
  · rfl

/-- C3: for a primary-world tick and a portal pipe whose horizontal extent
overlaps the bird's and whose (nonempty) id is not in the used-portal
registry: fully inside the portal window (30%–70% of the gap) triggers the
bonus-world entry; otherwise leaving the full gap bounds triggers the
game-over (no invincibility exists in this variant, so the invincibility
proviso is vacuous); inside the gap but outside the window, the pipe has no
effect at all. -/
theorem claim_C3_portalWindow (env : Env) (x y : ℚ) (acc : ScanAcc) (p : Pipe)
    (hov : x + BIRD_SIZE > p.x ∧ x < p.x + PIPE_WIDTH)
    (hunused : p.id ∉ acc.usedPortalIds)
    (hspec : p.isSpecial = true)
    (hworld : acc.inSpecialWorld = false)
    (hid : p.id ≠ "") :
    (y ≥ p.topHeight + p.gap * 0.3 ∧ y + BIRD_SIZE ≤ p.topHeight + p.gap * 0.7 →
        processPipe env x y acc p = (entryAcc env acc p, p))
    ∧ (¬(y ≥ p.topHeight + p.gap * 0.3 ∧ y + BIRD_SIZE ≤ p.topHeight + p.gap * 0.7) →
        (y < p.topHeight ∨ y + BIRD_SIZE > p.topHeight + p.gap) →
        processPipe env x y acc p = ({ acc with gameOver := true }, p))
    ∧ (¬(y ≥ p.topHeight + p.gap * 0.3 ∧ y + BIRD_SIZE ≤ p.topHeight + p.gap * 0.7) →
        ¬(y < p.topHeight ∨ y + BIRD_SIZE > p.topHeight + p.gap) →
        processPipe env x y acc p = (acc, p)) :=
  ⟨fun hwin => processPipe_entry env x y acc p hov hunused hspec hwin hworld hid,
   fun hwin hout => processPipe_collide env x y acc p hov hunused hspec hwin hout,
   fun hwin hout => processPipe_safe env x y acc p hov hunused hspec hwin hout⟩

/-- Witness for C3: a concrete window-aligned pass through a fresh portal
pipe produces the entry transition. -/
theorem claim_C3_portalWindow_witness :
    processPipe
        { spawnHeightRand := 0, spawnSpecialRand := 1, spawnId := "q",
          frogRands := fun _ => (0, 0), frogStamp := "t", exitRand := (0, 0) }
        200 200
        { gameOver := false, coins := 0, inSpecialWorld := false,
          worldCoins := [], usedPortalIds := [], entered := none }
        { x := 190, topHeight := 100, passed := false, isSpecial := true,
          gap := 200, id := "p1" } =
      (entryAcc
        { spawnHeightRand := 0, spawnSpecialRand := 1, spawnId := "q",
          frogRands := fun _ => (0, 0), frogStamp := "t", exitRand := (0, 0) }
        { gameOver := false, coins := 0, inSpecialWorld := false,
          worldCoins := [], usedPortalIds := [], entered := none }
        { x := 190, topHeight := 100, passed := false, isSpecial := true,
          gap := 200, id := "p1" },
       { x := 190, topHeight := 100, passed := false, isSpecial := true,
         gap := 200, id := "p1" }) :=
  (claim_C3_portalWindow _ 200 200 _ _
    (by norm_num [BIRD_SIZE, PIPE_WIDTH])
    (by simp)
    rfl
    rfl
    (by simp)).1
    (by norm_num [BIRD_SIZE])

/-- C2: per tick, the used-portal registry only grows; an id enters it only
at the moment of a bonus-world entry recorded for the pipe carrying that id;
and an id already in the registry never triggers another entry. -/
theorem claim_C2_usedPortalRegistry (s : GameState) (inp : Input) (env : Env) :
    (∀ id, id ∈ s.usedPortalIds → id ∈ (step s inp env).usedPortalIds)
    ∧ (∀ id, id ∈ (step s inp env).usedPortalIds → id ∈ s.usedPortalIds ∨
        (s.inSpecialWorld = false ∧ (step s inp env).inSpecialWorld = true ∧
          ∃ ep, (primaryScan s inp env).1.entered = some ep ∧ ep.id = id))
    ∧ (∀ id, id ∈ s.usedPortalIds →
        ∀ ep, (primaryScan s inp env).1.entered = some ep → ep.id ≠ id) := by
  have hscan_init : (initScanAcc s).entered = none := rfl
  cases hsw : s.inSpecialWorld
  · rw [step_of_primary s inp env hsw]
    have hused : (primaryStep s inp env).usedPortalIds
        = (primaryScan s inp env).1.usedPortalIds := rfl
    have hsp : (primaryStep s inp env).inSpecialWorld
        = (primaryScan s inp env).1.inSpecialWorld := rfl
    refine ⟨?_, ?_, ?_⟩
    · intro id hmem
      rw [hused]
      exact processPipes_used_mono env _ _ _ (initScanAcc s) hmem
    · intro id hmem
      rw [hused] at hmem
      rcases processPipes_used_new env _ _ _ (initScanAcc s) hmem with h | ⟨hnot, ep, hep, hid⟩
      · exact Or.inl h
      · rcases processPipes_entered_some env _ _ _ (initScanAcc s) hep with h' | ⟨_, _, _, _, hact⟩
        · rw [hscan_init] at h'; cases h'
        · exact Or.inr ⟨rfl, by rw [hsp]; exact hact, ep, hep, hid⟩
    · intro id hmem ep hep
      rcases processPipes_entered_some env _ _ _ (initScanAcc s) hep with h' | ⟨_, _, hnot, _, _⟩
      · rw [hscan_init] at h'; cases h'
      · intro hc; exact hnot (hc ▸ hmem)
  · rw [step_of_special s inp env hsw]
    have hents : (primaryScan s inp env).1.entered = none := by
      have := processPipes_inSpecial_mono env (newBirdX s inp) (newBirdY s inp)
        (pipesAfterMotion s env) (initScanAcc s) (by simpa [initScanAcc] using hsw)
      simpa [primaryScan, hscan_init] using this.2
    refine ⟨?_, ?_, ?_⟩
    · intro id hmem
      rw [specialStep_usedPortalIds]
      exact hmem
    · intro id hmem
      rw [specialStep_usedPortalIds] at hmem
      exact Or.inl hmem
    · intro id _ ep hep
      rw [hents] at hep
      cases hep

/-- C6: while the bonus-world session is active the countdown decreases by
`16/1000` each tick; when it would reach zero before the exit, the tick ends
in game-over with the stored countdown clamped to exactly 0 (and the timeout
toast differs from the collision toast for every coin total); otherwise the
tick either exits (resetting the countdown to 10) or stores exactly the
decremented value; a nonnegative countdown stays nonnegative. -/
theorem claim_C6_portalTimer (s : GameState) (inp : Input) (env : Env)
    (hsw : s.inSpecialWorld = true) :
    (s.portalTimer - 16 / 1000 ≤ 0 →
        (step s inp env).gameOver = true ∧ (step s inp env).portalTimer = 0)
    ∧ (0 < s.portalTimer - 16 / 1000 →
        ((step s inp env).inSpecialWorld = false ∧ (step s inp env).portalTimer = 10)
        ∨ ((step s inp env).inSpecialWorld = true ∧
            (step s inp env).portalTimer = s.portalTimer - 16 / 1000))
    ∧ (0 ≤ s.portalTimer → 0 ≤ (step s inp env).portalTimer)
    ∧ (∀ c : ℚ, timeUpMessage ≠ collisionMessage c) := by
  rw [step_of_special s inp env hsw]
  have hmsg := timeUpMessage_ne_collisionMessage
  rcases hpe : s.portalExit with _ | e <;>
    simp only [specialStep, hpe] <;>
    split_ifs with h1 h2
  · exact ⟨fun _ => ⟨rfl, rfl⟩, fun hc => absurd (le_of_lt hc) (by linarith),
      fun _ => le_refl 0, hmsg⟩
  · exact ⟨fun hc => absurd hc h1, fun _ => Or.inl ⟨rfl, rfl⟩,
      fun _ => by norm_num, hmsg⟩
  · exact ⟨fun hc => absurd hc h1, fun _ => Or.inr ⟨hsw, rfl⟩,
      fun _ => le_of_lt (not_le.mp h1), hmsg⟩
  · exact ⟨fun _ => ⟨rfl, rfl⟩, fun hc => absurd (le_of_lt hc) (by linarith),
      fun _ => le_refl 0, hmsg⟩
  · exact ⟨fun hc => absurd hc h1, fun _ => Or.inl ⟨rfl, rfl⟩,
      fun _ => by norm_num, hmsg⟩
  · exact ⟨fun hc => absurd hc h1, fun _ => Or.inr ⟨hsw, rfl⟩,
      fun _ => le_of_lt (not_le.mp h1), hmsg⟩

/-- Witness for C6: a concrete active session whose countdown is about to
expire ends the tick in game-over with the countdown stored as exactly 0. -/
theorem claim_C6_portalTimer_witness :
    (step
        { initialGameState with
            gameStarted := true, inSpecialWorld := true, portalTimer := 0.01 }
        { keyW := false, keyA := false, keyS := false, keyD := false }
        { spawnHeightRand := 0, spawnSpecialRand := 1, spawnId := "q",
          frogRands := fun _ => (0, 0), frogStamp := "t",
          exitRand := (0, 0) }).gameOver = true ∧
    (step
        { initialGameState with
            gameStarted := true, inSpecialWorld := true, portalTimer := 0.01 }
        { keyW := false, keyA := false, keyS := false, keyD := false }
        { spawnHeightRand := 0, spawnSpecialRand := 1, spawnId := "q",
          frogRands := fun _ => (0, 0), frogStamp := "t",
          exitRand := (0, 0) }).portalTimer = 0 :=
  (claim_C6_portalTimer _ _ _ rfl).1 (by norm_num [initialGameState])

/-- C9: from any in-bounds position, the bird's position after a tick is
still within the arena on both axes independently, including the
repositioning performed on a bonus-world exit. -/
theorem claim_C9_birdInBounds (s : GameState) (inp : Input) (env : Env)
    (hx : 0 ≤ s.birdX ∧ s.birdX ≤ 370) (hy : 0 ≤ s.birdY ∧ s.birdY ≤ 470) :
    (0 ≤ (step s inp env).birdX ∧ (step s inp env).birdX ≤ 370) ∧
      (0 ≤ (step s inp env).birdY ∧ (step s inp env).birdY ≤ 470) := by
  cases hsw : s.inSpecialWorld
  · rw [step_of_primary s inp env hsw]
    exact ⟨newBirdX_bounds s inp, newBirdY_bounds s inp⟩
  · rw [step_of_special s inp env hsw]
    rcases hpe : s.portalExit with _ | e <;>
      simp only [specialStep, hpe] <;>
      split_ifs with h1 h2
    · exact ⟨hx, hy⟩
    · rcases hep : s.enteredPortal with _ | ep <;> simp only [hep]
      · exact ⟨⟨by norm_num, by norm_num⟩, by norm_num, by norm_num⟩
      · exact ⟨⟨le_max_left _ _, max_le (by norm_num) (min_le_left _ _)⟩,
          le_max_left _ _, max_le (by norm_num) (min_le_left _ _)⟩
    · exact ⟨newBirdX_bounds s inp, newBirdY_bounds s inp⟩
    · exact ⟨hx, hy⟩
    · rcases hep : s.enteredPortal with _ | ep <;> simp only [hep]
      · exact ⟨⟨by norm_num, by norm_num⟩, by norm_num, by norm_num⟩
      · exact ⟨⟨le_max_left _ _, max_le (by norm_num) (min_le_left _ _)⟩,
          le_max_left _ _, max_le (by norm_num) (min_le_left _ _)⟩
    · exact ⟨newBirdX_bounds s inp, newBirdY_bounds s inp⟩

/-- Witness for C9: from the initial in-bounds position, a concrete tick
keeps the bird within the arena. -/
theorem claim_C9_birdInBounds_witness :
    (0 ≤ (step { initialGameState with gameStarted := true }
        { keyW := false, keyA := false, keyS := false, keyD := true }
        { spawnHeightRand := 0, spawnSpecialRand := 1, spawnId := "q",
          frogRands := fun _ => (0, 0), frogStamp := "t",
          exitRand := (0, 0) }).birdX ∧
      (step { initialGameState with gameStarted := true }
        { keyW := false, keyA := false, keyS := false, keyD := true }
        { spawnHeightRand := 0, spawnSpecialRand := 1, spawnId := "q",
          frogRands := fun _ => (0, 0), frogStamp := "t",
          exitRand := (0, 0) }).birdX ≤ 370) ∧
    (0 ≤ (step { initialGameState with gameStarted := true }
        { keyW := false, keyA := false, keyS := false, keyD := true }
        { spawnHeightRand := 0, spawnSpecialRand := 1, spawnId := "q",
          frogRands := fun _ => (0, 0), frogStamp := "t",
          exitRand := (0, 0) }).birdY ∧
      (step { initialGameState with gameStarted := true }
        { keyW := false, keyA := false, keyS := false, keyD := true }
        { spawnHeightRand := 0, spawnSpecialRand := 1, spawnId := "q",
          frogRands := fun _ => (0, 0), frogStamp := "t",
          exitRand := (0, 0) }).birdY ≤ 470) :=
  claim_C9_birdInBounds _ _ _ (by norm_num [initialGameState])
    (by norm_num [initialGameState])

/-- C5: on a primary-world tick every pipe's passed flag is set exactly when
the bird's leading edge has cleared the pipe's trailing edge (and once set it
stays set), and the coins grow by exactly the entry bonus (when an entry is
recorded) plus the sum of the passage rewards of the newly passed pipes — 3
for a portal pipe and 1 for a plain one, awarded only when the pipe was not
yet marked passed. -/
theorem claim_C5_passageReward (s : GameState) (inp : Input) (env : Env)
    (hsw : s.inSpecialWorld = false) :
    (step s inp env).pipes
        = (pipesAfterMotion s env).map (passedUpdate (newBirdX s inp))
    ∧ (∀ p : Pipe, (passedUpdate (newBirdX s inp) p).passed
        = (p.passed || decide (newBirdX s inp > p.x + PIPE_WIDTH)))
    ∧ (step s inp env).coins =
        s.coins + (if (primaryScan s inp env).1.entered = none then 0 else 5)
          + passRewardSum (newBirdX s inp) (pipesAfterMotion s env)
    ∧ (∀ p : Pipe, p.passed = true → pipePassReward (newBirdX s inp) p = 0)
    ∧ (∀ p : Pipe, p.passed = false → newBirdX s inp > p.x + PIPE_WIDTH →
        pipePassReward (newBirdX s inp) p = (if p.isSpecial then 3 else 1)) := by
  rw [step_of_primary s inp env hsw]
  refine ⟨?_, ?_, ?_, ?_, ?_⟩
  · exact processPipes_snd env _ _ (pipesAfterMotion s env) (initScanAcc s)
  · intro p; rfl
  · have h := processPipes_coins env (newBirdX s inp) (newBirdY s inp)
      (pipesAfterMotion s env) (initScanAcc s) (Or.inl rfl)
    simpa [primaryStep, primaryScan, initScanAcc] using h
  · intro p hp
    simp [pipePassReward, hp]
  · intro p hp hgt
    simp [pipePassReward, hp, hgt]

/-- Witness for C5 at a concrete primary-world tick. -/
theorem claim_C5_passageReward_witness :
    (step
        { initialGameState with
            gameStarted := true
            birdX := 300
            birdY := 100
            pipes := [{ x := 152, topHeight := 100, passed := false,
                        isSpecial := false, gap := 200, id := "c5p" }] }
        { keyW := false, keyA := false, keyS := false, keyD := false }
        { spawnHeightRand := 0, spawnSpecialRand := 1, spawnId := "q",
          frogRands := fun _ => (0, 0), frogStamp := "t",
          exitRand := (0, 0) }).pipes
      = (pipesAfterMotion
          { initialGameState with
              gameStarted := true
              birdX := 300
              birdY := 100
              pipes := [{ x := 152, topHeight := 100, passed := false,
                          isSpecial := false, gap := 200, id := "c5p" }] }
          { spawnHeightRand := 0, spawnSpecialRand := 1, spawnId := "q",
            frogRands := fun _ => (0, 0), frogStamp := "t",
            exitRand := (0, 0) }).map
          (passedUpdate (newBirdX
            { initialGameState with
                gameStarted := true
                birdX := 300
                birdY := 100
                pipes := [{ x := 152, topHeight := 100, passed := false,
                            isSpecial := false, gap := 200, id := "c5p" }] }
            { keyW := false, keyA := false, keyS := false, keyD := false })) :=
  (claim_C5_passageReward _ _ _ rfl).1

/-! ### Concrete scenario: bonus-world entry followed by exit

The entry tick below threads the bird through the portal window of the
special pipe `c1Pipe`; the next tick reaches the (lazily created) exit
point.  Because the state object built in the source's entry branch is
discarded by `Array.forEach`, the `enteredPortal` memory is never stored,
and the exit repositions the bird to the default `(200, 250)` instead of the
triggering pipe's clamped gap center `(205, 185)`. -/

def c1Env1 : Env :=
  { spawnHeightRand := 0
    spawnSpecialRand := 1
    spawnId := "pipe-new"
    frogRands := fun _ => (0, 0)
    frogStamp := "t1"
    exitRand := (0, 0) }

def c1Pipe : Pipe :=
  { x := 192, topHeight := 100, passed := false, isSpecial := true,
    gap := 200, id := "p1" }

/-- Pipe `c1Pipe` after this tick's leftward motion. -/
def c1PipeM : Pipe :=
  { x := 190, topHeight := 100, passed := false, isSpecial := true,
    gap := 200, id := "p1" }

/-- The pipe the entry tick spawns at the right edge. -/
def c1Spawn : Pipe :=
  { x := 400, topHeight := 50, passed := false, isSpecial := false,
    gap := 250, id := "pipe-new" }

def c1State0 : GameState :=
  { initialGameState with
      gameStarted := true
      birdX := 200
      birdY := 200
      pipes := [c1Pipe] }

def c1Input : Input := { keyW := false, keyA := false, keyS := false, keyD := false }

def c1State1 : GameState := step c1State0 c1Input c1Env1

def c1Env2 : Env :=
  { spawnHeightRand := 0
    spawnSpecialRand := 1
    spawnId := "pipe-new2"
    frogRands := fun _ => (0, 0)
    frogStamp := "t2"
    exitRand := (1/2, 1/2) }

def c1State2 : GameState := step c1State1 c1Input c1Env2

theorem c1_newBirdX : newBirdX c1State0 c1Input = 200 := by
  norm_num [newBirdX, birdDirectionX, c1State0, c1Input, initialGameState]

theorem c1_newBirdY : newBirdY c1State0 c1Input = 200 := by
  norm_num [newBirdY, birdDirectionY, c1State0, c1Input, initialGameState]

theorem c1_pipesAfterMotion : pipesAfterMotion c1State0 c1Env1 = [c1PipeM, c1Spawn] := by
  simp only [pipesAfterMotion, movePipes, spawnPipes, c1State0, c1Pipe, c1Env1,
    initialGameState, List.map_cons, List.map_nil]
  norm_num [PIPE_SPEED, PIPE_WIDTH, SPECIAL_PIPE_CHANCE, getCurrentPipeGap,
    MIN_PIPE_GAP, INITIAL_PIPE_GAP, List.getLast?, c1PipeM, c1Spawn]

theorem c1_scan : primaryScan c1State0 c1Input c1Env1 =
    (entryAcc c1Env1 (initScanAcc c1State0) c1PipeM, [c1PipeM, c1Spawn]) := by
  rw [primaryScan, c1_pipesAfterMotion, c1_newBirdX, c1_newBirdY]
  simp only [processPipes]
  rw [processPipe_entry c1Env1 200 200 (initScanAcc c1State0) c1PipeM
      (by norm_num [BIRD_SIZE, PIPE_WIDTH, c1PipeM])
      (by simp [initScanAcc, c1State0, initialGameState, c1PipeM])
      rfl
      (by norm_num [BIRD_SIZE, c1PipeM])
      rfl
      (by simp [c1PipeM])]
  rw [processPipe_inert c1Env1 200 200 _ c1Spawn
      (by norm_num [BIRD_SIZE, PIPE_WIDTH, c1Spawn])
      (by norm_num [PIPE_WIDTH, c1Spawn])]

/-- The state after the entry tick, written out. -/
def c1R1 : GameState :=
  { c1State0 with
      pipes := [c1PipeM, c1Spawn]
      coins := 5
      inSpecialWorld := true
      worldCoins := generateWorldCoins c1Env1
      usedPortalIds := ["p1"] }

theorem c1_state1 : c1State1 = c1R1 := by
  rw [c1R1]
  rw [c1State1, step_of_primary _ _ _ rfl]
  simp only [primaryStep, c1_scan, c1_newBirdX, c1_newBirdY]
  simp [entryAcc, initScanAcc, addUsedId, getCurrentTheme, c1State0, c1PipeM,
    initialGameState, c1Input, birdDirectionX, birdDirectionY, newBirdX, newBirdY]

/-- The bonus-world exit branch, under explicit conditions: no stored exit
point (so one is generated this tick), no timeout, player within the exit
radius, and — as in every reachable state of this code — no stored
`enteredPortal`, so the return position is the default `(200, 250)`. -/
theorem specialStep_exit_default (s : GameState) (inp : Input) (env : Env)
    (hpe : s.portalExit = none)
    (ht : ¬(s.portalTimer - 16 / 1000 ≤ 0))
    (hex : (newBirdX s inp - (generatePortalExit env).1) ^ 2 +
        (newBirdY s inp - (generatePortalExit env).2) ^ 2 < 30 ^ 2)
    (hep : s.enteredPortal = none) :
    specialStep s inp env =
      { s with
          birdX := 200
          birdY := 250
          birdDirX := birdDirectionX inp
          birdDirY := birdDirectionY inp
          coins := (collectFrogs (newBirdX s inp) (newBirdY s inp)
            { coins := s.coins, frogsEaten := s.frogsEaten, isEating := false }
            s.worldCoins).1.coins
          inSpecialWorld := false
          worldCoins := []
          colorTheme := getCurrentTheme s.coins
          portalTimer := 10
          portalExit := none
          enteredPortal := none
          frogsEaten := (collectFrogs (newBirdX s inp) (newBirdY s inp)
            { coins := s.coins, frogsEaten := s.frogsEaten, isEating := false }
            s.worldCoins).1.frogsEaten
          isEating := (collectFrogs (newBirdX s inp) (newBirdY s inp)
            { coins := s.coins, frogsEaten := s.frogsEaten, isEating := false }
            s.worldCoins).1.isEating } := by
  simp only [specialStep, hpe, hep]
  rw [if_neg ht, if_pos hex]

theorem c1R1_newBirdX : newBirdX c1R1 c1Input = 200 := by
  norm_num [newBirdX, birdDirectionX, c1R1, c1State0, c1Input, initialGameState]

theorem c1R1_newBirdY : newBirdY c1R1 c1Input = 200 := by
  norm_num [newBirdY, birdDirectionY, c1R1, c1State0, c1Input, initialGameState]

theorem c1_state2 :
    c1State2.inSpecialWorld = false ∧ c1State2.worldCoins = [] ∧
      c1State2.birdX = 200 ∧ c1State2.birdY = 250 := by
  rw [c1State2, c1_state1, step_of_special c1R1 c1Input c1Env2 rfl]
  rw [specialStep_exit_default c1R1 c1Input c1Env2 rfl
    (by norm_num [c1R1, c1State0, initialGameState])
    (by rw [c1R1_newBirdX, c1R1_newBirdY]; norm_num [generatePortalExit, c1Env2])
    rfl]
  simp

/-- C1 (code bug): a session entered through `c1PipeM` ends with an exit,
after which the collectible list is empty — but the player is at the default
`(200, 250)`, not the triggering obstacle's clamped gap center `(205, 185)`.
The source's entry branch builds the `enteredPortal` memory inside a
`return` from the `forEach` callback, whose value `Array.forEach` discards,
so `enteredPortal` is still `none` after the entry tick and the exit takes
the default-position path. -/
theorem claim_C1_exitPositionBug :
    (primaryScan c1State0 c1Input c1Env1).1.entered =
      some { x := c1PipeM.x, topHeight := c1PipeM.topHeight,
             gap := c1PipeM.gap, id := c1PipeM.id }
    ∧ c1State1.inSpecialWorld = true
    ∧ c1State1.enteredPortal = none
    ∧ c1State2.inSpecialWorld = false
    ∧ c1State2.worldCoins = []
    ∧ c1State2.birdX = 200
    ∧ c1State2.birdY = 250
    ∧ (max 0 (min 370 (c1PipeM.x + PIPE_WIDTH / 2 - BIRD_SIZE / 2)),
        max 0 (min 470 (c1PipeM.topHeight + c1PipeM.gap / 2 - BIRD_SIZE / 2)))
        = ((205 : ℚ), (185 : ℚ))
    ∧ ¬((205 : ℚ) = 200 ∧ (185 : ℚ) = 250) := by
  refine ⟨?_, ?_, ?_, c1_state2.1, c1_state2.2.1, c1_state2.2.2.1,
    c1_state2.2.2.2, ?_, ?_⟩
  · rw [c1_scan]; rfl
  · rw [c1_state1]; rfl
  · rw [c1_state1]; rfl
  · norm_num [c1PipeM, PIPE_WIDTH, BIRD_SIZE]
  · norm_num

/-! ### Concrete scenario: the bonus-world entry tick in isolation -/

def c4Env : Env :=
  { spawnHeightRand := 1/2
    spawnSpecialRand := 1
    spawnId := "pipe-new4"
    frogRands := fun _ => (1/2, 1/2)
    frogStamp := "t4"
    exitRand := (0, 0) }

def c4Pipe : Pipe :=
  { x := 182, topHeight := 120, passed := false, isSpecial := true,
    gap := 150, id := "p4" }

/-- Pipe `c4Pipe` after this tick's leftward motion. -/
def c4PipeM : Pipe :=
  { x := 180, topHeight := 120, passed := false, isSpecial := true,
    gap := 150, id := "p4" }

/-- The pipe the entry tick spawns at the right edge. -/
def c4Spawn : Pipe :=
  { x := 400, topHeight := 150, passed := false, isSpecial := false,
    gap := 250, id := "pipe-new4" }

def c4State0 : GameState :=
  { initialGameState with
      gameStarted := true
      birdX := 180
      birdY := 180
      portalTimer := 7
      pipes := [c4Pipe] }

def c4Input : Input := { keyW := false, keyA := false, keyS := false, keyD := false }

def c4State1 : GameState := step c4State0 c4Input c4Env

theorem c4_newBirdX : newBirdX c4State0 c4Input = 180 := by
  norm_num [newBirdX, birdDirectionX, c4State0, c4Input, initialGameState]

theorem c4_newBirdY : newBirdY c4State0 c4Input = 180 := by
  norm_num [newBirdY, birdDirectionY, c4State0, c4Input, initialGameState]

theorem c4_pipesAfterMotion : pipesAfterMotion c4State0 c4Env = [c4PipeM, c4Spawn] := by
  simp only [pipesAfterMotion, movePipes, spawnPipes, c4State0, c4Pipe, c4Env,
    initialGameState, List.map_cons, List.map_nil]
  norm_num [PIPE_SPEED, PIPE_WIDTH, SPECIAL_PIPE_CHANCE, getCurrentPipeGap,
    MIN_PIPE_GAP, INITIAL_PIPE_GAP, List.getLast?, c4PipeM, c4Spawn]

theorem c4_scan : primaryScan c4State0 c4Input c4Env =
    (entryAcc c4Env (initScanAcc c4State0) c4PipeM, [c4PipeM, c4Spawn]) := by
  rw [primaryScan, c4_pipesAfterMotion, c4_newBirdX, c4_newBirdY]
  simp only [processPipes]
  rw [processPipe_entry c4Env 180 180 (initScanAcc c4State0) c4PipeM
      (by norm_num [BIRD_SIZE, PIPE_WIDTH, c4PipeM])
      (by simp [initScanAcc, c4State0, initialGameState, c4PipeM])
      rfl
      (by norm_num [BIRD_SIZE, c4PipeM])
      rfl
      (by simp [c4PipeM])]
  rw [processPipe_inert c4Env 180 180 _ c4Spawn
      (by norm_num [BIRD_SIZE, PIPE_WIDTH, c4Spawn])
      (by norm_num [PIPE_WIDTH, c4Spawn])]

/-- The state after the entry tick, written out. -/
def c4R1 : GameState :=
  { c4State0 with
      pipes := [c4PipeM, c4Spawn]
      coins := 5
      inSpecialWorld := true
      worldCoins := generateWorldCoins c4Env
      usedPortalIds := ["p4"] }

theorem c4_state1 : c4State1 = c4R1 := by
  rw [c4R1, c4State1, step_of_primary _ _ _ rfl]
  simp only [primaryStep, c4_scan, c4_newBirdX, c4_newBirdY]
  simp [entryAcc, initScanAcc, addUsedId, getCurrentTheme, c4State0, c4PipeM,
    initialGameState, c4Input, birdDirectionX, birdDirectionY, newBirdX, newBirdY]

/-- C4 (code bug): the entry tick through `c4PipeM` marks the id used and
generates the 12-frog batch, but the coins grow by exactly the flat entry
bonus of 5 — no mini-game exists in any variant under `src/` — and, because
the entry branch's return value is discarded by `Array.forEach`, the exit
point is not stored (it stays `none` until the next bonus-world tick
lazily creates one), the countdown is not set to the fixed duration 10 (it
keeps its previous value, here 7), and the triggering obstacle's geometry is
not remembered.  (No invincibility exists in this variant either.) -/
theorem claim_C4_entryEffectsBug :
    (primaryScan c4State0 c4Input c4Env).1.entered =
      some { x := c4PipeM.x, topHeight := c4PipeM.topHeight,
             gap := c4PipeM.gap, id := c4PipeM.id }
    ∧ c4State1.inSpecialWorld = true
    ∧ c4State1.usedPortalIds = ["p4"]
    ∧ c4State1.worldCoins = generateWorldCoins c4Env
    ∧ (generateWorldCoins c4Env).length = 12
    ∧ c4State1.coins = c4State0.coins + 5
    ∧ c4State1.portalExit = none
    ∧ c4State0.portalTimer = 7
    ∧ c4State1.portalTimer = 7
    ∧ c4State1.enteredPortal = none := by
  refine ⟨?_, ?_, ?_, ?_, ?_, ?_, ?_, rfl, ?_, ?_⟩
  · rw [c4_scan]; rfl
  · rw [c4_state1]; rfl
  · rw [c4_state1]; rfl
  · rw [c4_state1]; rfl
  · simp [generateWorldCoins]
  · rw [c4_state1]
    norm_num [c4R1, c4State0, initialGameState]
  · rw [c4_state1]; rfl
  · rw [c4_state1]; rfl
  · rw [c4_state1]; rfl

/-- Witness for C2 at a concrete tick: an id already in the registry is
still there after the tick. -/
theorem claim_C2_usedPortalRegistry_witness :
    "a" ∈ (step
        { initialGameState with gameStarted := true, usedPortalIds := ["a"] }
        { keyW := false, keyA := false, keyS := false, keyD := false }
        { spawnHeightRand := 0, spawnSpecialRand := 1, spawnId := "q",
          frogRands := fun _ => (0, 0), frogStamp := "t",
          exitRand := (0, 0) }).usedPortalIds :=
  (claim_C2_usedPortalRegistry _ _ _).1 "a" (by simp [initialGameState])
